import Mathlib

/-!
Verification of the XPACK container programs (programs/xpack.c and
programs/benchmark.c) against their natural-language specification.

The container layer (file header, chunk framing, diagnostics, exit codes,
unlink discipline) is embedded directly from programs/xpack.c.  The codec
itself (lib/xpack_compress.c, lib/xpack_decompress.c) is not part of the
available sources; it is modelled from the specification's interface
contract (sections 4.6, 6, 7 and 8): compress returns 0 when the output
would meet or exceed the capacity and otherwise produces a stream that
decompresses back to the input; decompress checks that the declared output
length matches and never produces more than the expected number of bytes.
Byte buffers are lists of naturals below 256; multi-byte integers are
serialized little-endian exactly as the C code does via le32_bswap and
le16_bswap.
-/

/-- Result codes of the codec, from the spec's decompress interface:
SUCCESS, BAD_DATA, SHORT_OUTPUT, INSUFFICIENT_SPACE. -/
inductive DecompressResult where
  | SUCCESS
  | BAD_DATA
  | SHORT_OUTPUT
  | INSUFFICIENT_SPACE
  deriving DecidableEq

/-- Diagnostics emitted by the container layer in programs/xpack.c
(msg calls in do_decompress and decompress_file). -/
inductive Diag where
  | notXpackFormat
  | unsupportedVersion
  | incorrectHeaderSize
  | unsupportedChunkSize
  | fileCorrupt
  | unexpectedEof
  | dataCorrupt
  deriving DecidableEq

/-- Little-endian serialization of a 16-bit value (le16_bswap). -/
def le16 (v : Nat) : List Nat :=
  [v % 256, v / 256 % 256]

/-- Little-endian serialization of a 32-bit value (le32_bswap). -/
def le32 (v : Nat) : List Nat :=
  [v % 256, v / 256 % 256, v / 65536 % 256, v / 16777216 % 256]

/-- Read a little-endian 16-bit value from the head of a byte list. -/
def readLe16 : List Nat → Nat
  | b0 :: b1 :: _ => b0 + 256 * b1
  | _ => 0

/-- Read a little-endian 32-bit value from the head of a byte list. -/
def readLe32 : List Nat → Nat
  | b0 :: b1 :: b2 :: b3 :: _ => b0 + 256 * b1 + 65536 * b2 + 16777216 * b3
  | _ => 0

/-- Modelled from the spec: encoder core of the missing lib/xpack_compress.c.
The spec leaves the bit-stream format open (it is declared experimental and
a reimplementation may pick its own format as long as compressor and
decompressor agree), so the model uses a simple byte-oriented run-length
code: each maximal run of up to 255 equal bytes becomes the pair
(byte, run length).  The pending run is (b, n) with 1 <= n <= 255. -/
def rleEncodeAux : List Nat → Nat → Nat → List Nat
  | [], b, n => [b, n]
  | c :: rest, b, n =>
    if c = b ∧ n < 255 then rleEncodeAux rest b (n + 1)
    else b :: n :: rleEncodeAux rest c 1

/-- Modelled from the spec: whole-buffer encoding (empty input encodes to
nothing; a nonempty input seeds the pending run with its first byte). -/
def rleEncode : List Nat → List Nat
  | [] => []
  | c :: rest => rleEncodeAux rest c 1

/-- Modelled from the spec: decoder core of the missing
lib/xpack_decompress.c.  Reads (byte, run length) pairs while tracking the
remaining expected output; any structural violation (odd-length stream,
zero or oversized run, run overshooting the expected output, non-byte
value, leftover expectation) is a failure, so the decoder never produces
more than the expected number of bytes. -/
def rleDecode : List Nat → Nat → Option (List Nat)
  | [], rem => if rem = 0 then some [] else none
  | [_], _ => none
  | b :: n :: rest, rem =>
    if 1 ≤ n ∧ n ≤ 255 ∧ n ≤ rem ∧ b ≤ 255 then
      (rleDecode rest (rem - n)).map (fun t => List.replicate n b ++ t)
    else none

/-- Modelled from the spec: xpack_compress(compressor, in, in_size, out,
out_capacity) from the codec API.  The compressor handle carries the level
(valid levels are 1..9; alloc_compressor fails otherwise).  Returns the
pair (bytes written, output bytes): 0 and no output when the input is
empty or the encoded stream would meet or exceed out_capacity, so the
caller stores the chunk raw. -/
def xpack_compress (level : Nat) (input : List Nat) (out_capacity : Nat) :
    Nat × List Nat :=
  if level < 1 ∨ 9 < level then (0, [])
  else if input.isEmpty ∨ out_capacity ≤ (rleEncode input).length then (0, [])
  else ((rleEncode input).length, rleEncode input)

/-- Modelled from the spec: xpack_decompress(decompressor, in, in_size,
out, expected_out_size, actual_out_size_ret) from the codec API.  Returns
the result code and the produced bytes; on success the produced length
equals expected_out_size, on failure nothing is produced. -/
def xpack_decompress (input : List Nat) (expected_out_size : Nat) :
    DecompressResult × List Nat :=
  match rleDecode input expected_out_size with
  | some out => (DecompressResult.SUCCESS, out)
  | none => (DecompressResult.BAD_DATA, [])

/-- The 8 magic bytes XPACK_MAGIC = "XPACK\0\0\0" from programs/xpack.c. -/
def XPACK_MAGIC : List Nat :=
  [88, 80, 65, 67, 75, 0, 0, 0]

/-- struct xpack_file_header from programs/xpack.c (16 bytes). -/
structure XpackFileHeader where
  magic : List Nat
  chunk_size : Nat
  header_size : Nat
  version : Nat
  compression_level : Nat

/-- Byte layout of struct xpack_file_header after bswap_file_header:
the magic, then chunk_size as little-endian u32, header_size as
little-endian u16, and the version and compression_level bytes. -/
def serializeFileHeader (h : XpackFileHeader) : List Nat :=
  h.magic ++ le32 h.chunk_size ++ le16 h.header_size ++
    [h.version % 256, h.compression_level % 256]

/-- write_file_header from programs/xpack.c: fills the header struct with
XPACK_MAGIC, the chunk size, header_size = sizeof(hdr) = 16, version = 1
and the compression level, byte-swaps it to little-endian and writes it. -/
def write_file_header (chunk_size : Nat) (compression_level : Nat) : List Nat :=
  serializeFileHeader
    { magic := XPACK_MAGIC
      chunk_size := chunk_size
      header_size := 16
      version := 1
      compression_level := compression_level }

/-- write_chunk_header from programs/xpack.c: stored_size then
original_size, each as a little-endian u32. -/
def write_chunk_header (stored_size original_size : Nat) : List Nat :=
  le32 stored_size ++ le32 original_size

/-- Body of the read loop of do_compress in programs/xpack.c for one chunk
c of input: try xpack_compress with out_capacity = original_size - 1; on 0
store the chunk raw (stored_size = original_size), otherwise store the
compressed bytes (stored_size = compressed_size); either way emit the
chunk header followed by the stored bytes. -/
def compressChunk (level : Nat) (c : List Nat) : List Nat :=
  if (xpack_compress level c (c.length - 1)).1 = 0 then
    write_chunk_header c.length c.length ++ c
  else
    write_chunk_header (xpack_compress level c (c.length - 1)).1 c.length ++
      (xpack_compress level c (c.length - 1)).2

/-- do_compress from programs/xpack.c: read up to chunk_size bytes at a
time and emit one framed chunk per read; the loop ends when xread returns
0 bytes. -/
def do_compress (level chunk_size : Nat) (input : List Nat) : List Nat :=
  if h : chunk_size = 0 ∨ input = [] then []
  else
    compressChunk level (input.take chunk_size) ++
      do_compress level chunk_size (input.drop chunk_size)
termination_by input.length
decreasing_by
  simp only [List.length_drop]
  push_neg at h
  have hpos : 0 < input.length := List.length_pos.mpr h.2
  omega

/-- Output bytes produced by a successful compress_file in
programs/xpack.c: the 16-byte file header followed by the framed chunks. -/
def compress_file_bytes (level chunk_size : Nat) (input : List Nat) : List Nat :=
  write_file_header chunk_size level ++ do_compress level chunk_size input

/-- do_decompress from programs/xpack.c: repeatedly read an 8-byte chunk
header (stored_size, original_size, both little-endian u32), validate
1 <= stored_size <= original_size <= chunk_size (otherwise "file
corrupt"), read stored_size stored bytes ("unexpected end-of-file" if they
are missing), emit them raw when stored_size = original_size and otherwise
decompress them to original_size bytes ("data corrupt" on codec failure).
A trailing partial chunk header is "unexpected end-of-file"; end of input
at a chunk boundary is success. -/
def do_decompress (chunk_size : Nat) (input : List Nat) :
    Except Diag (List Nat) :=
  match input with
  | [] => Except.ok []
  | s0 :: s1 :: s2 :: s3 :: o0 :: o1 :: o2 :: o3 :: rest =>
    let stored_size := s0 + 256 * s1 + 65536 * s2 + 16777216 * s3
    let original_size := o0 + 256 * o1 + 65536 * o2 + 16777216 * o3
    if original_size < 1 ∨ chunk_size < original_size ∨
        stored_size < 1 ∨ original_size < stored_size then
      Except.error Diag.fileCorrupt
    else if rest.length < stored_size then
      Except.error Diag.unexpectedEof
    else if stored_size = original_size then
      match do_decompress chunk_size (rest.drop stored_size) with
      | Except.ok tail => Except.ok (rest.take stored_size ++ tail)
      | Except.error e => Except.error e
    else
      match xpack_decompress (rest.take stored_size) original_size with
      | (DecompressResult.SUCCESS, out) =>
        match do_decompress chunk_size (rest.drop stored_size) with
        | Except.ok tail => Except.ok (out ++ tail)
        | Except.error e => Except.error e
      | _ => Except.error Diag.dataCorrupt
  | _ => Except.error Diag.unexpectedEof
termination_by input.length
decreasing_by
  all_goals simp only [List.length_drop, List.length_cons]; omega

/-- decompress_file from programs/xpack.c, from the point where the input
bytes are read: read the 16-byte file header (fewer than 16 bytes is "not
in XPACK format"), check the magic ("not in XPACK format"), the version
("unsupported version"), header_size >= 16 ("incorrect header size") and
1024 <= chunk_size <= 67108864 ("unsupported chunk size"), skip
header_size - 16 extra header bytes, and only then open the output file
and run do_decompress.  The boolean records whether the output file was
opened (xopen_for_write is reached only after every header check). -/
def decompress_file (input : List Nat) : Bool × Except Diag (List Nat) :=
  match input with
  | m0 :: m1 :: m2 :: m3 :: m4 :: m5 :: m6 :: m7 ::
      c0 :: c1 :: c2 :: c3 :: h0 :: h1 :: v :: _lvl :: rest =>
    let chunk_size := c0 + 256 * c1 + 65536 * c2 + 16777216 * c3
    let header_size := h0 + 256 * h1
    if [m0, m1, m2, m3, m4, m5, m6, m7] ≠ XPACK_MAGIC then
      (false, Except.error Diag.notXpackFormat)
    else if v ≠ 1 then
      (false, Except.error Diag.unsupportedVersion)
    else if header_size < 16 then
      (false, Except.error Diag.incorrectHeaderSize)
    else if chunk_size < 1024 ∨ 67108864 < chunk_size then
      (false, Except.error Diag.unsupportedChunkSize)
    else if rest.length < header_size - 16 then
      (false, Except.error Diag.unexpectedEof)
    else
      (true, do_decompress chunk_size (rest.drop (header_size - 16)))
  | _ => (false, Except.error Diag.notXpackFormat)

/-- Per-invocation outcome of compress_file / decompress_file in
programs/xpack.c: the returned status, whether the named output file was
created, and which unlink calls ran in the epilogue. -/
structure FileFlowResult where
  ret : Int
  createdOut : Bool
  unlinkedOut : Bool
  unlinkedIn : Bool
  deriving DecidableEq

/-- Shared epilogue of compress_file and decompress_file (labels
out_close_out and out_close_in): fold the xclose result into a successful
status, unlink the partially written output when the final status is
nonzero and a named output path exists, and unlink the input only on full
success with a named output path and without the keep option. -/
def file_epilogue (named keep : Bool) (body_ret : Int) (closeOutOk : Bool) :
    FileFlowResult :=
  let r : Int := if body_ret = 0 ∧ closeOutOk = false then -1 else body_ret
  { ret := r
    createdOut := named
    unlinkedOut := named && decide (r ≠ 0)
    unlinkedIn := named && !keep && decide (r = 0) }

/-- Control flow of compress_file in programs/xpack.c, with every external
step abstracted to its outcome: suffix warning (-2, skip), open input,
stat_file (0 / -1 / -2), open output (the output file exists from here
on), then the body (terminal refusal, write_file_header, do_compress) and
the epilogue.  named is true when path is non-null and -c was not given,
so that a named output path (newpath) exists. -/
def compress_file_flow (named force keep hasSuffix openInOk : Bool)
    (statRes : Int) (openOutOk ttyOutOk headerOk bodyOk closeOutOk : Bool) :
    FileFlowResult :=
  if named && !force && hasSuffix then ⟨-2, false, false, false⟩
  else if !openInOk then ⟨-1, false, false, false⟩
  else if statRes ≠ 0 then ⟨statRes, false, false, false⟩
  else if !openOutOk then ⟨-1, false, false, false⟩
  else
    let body_ret : Int :=
      if !ttyOutOk then -1 else if !headerOk then -1
      else if !bodyOk then -1 else 0
    file_epilogue named keep body_ret closeOutOk

/-- Control flow of decompress_file in programs/xpack.c, with every
external step abstracted to its outcome: missing-suffix warning (-2,
skip), open input, terminal refusal, stat_file (0 / -1 / -2), the file
header checks, skip_bytes, open output (the output file exists from here
on), then do_decompress and the epilogue. -/
def decompress_file_flow (named force keep suffixOk openInOk ttyInOk : Bool)
    (statRes : Int) (hdrOk skipOk openOutOk bodyOk closeOutOk : Bool) :
    FileFlowResult :=
  if named && !suffixOk then ⟨-2, false, false, false⟩
  else if !openInOk then ⟨-1, false, false, false⟩
  else if !ttyInOk then ⟨-1, false, false, false⟩
  else if statRes ≠ 0 then ⟨statRes, false, false, false⟩
  else if !hdrOk then ⟨-1, false, false, false⟩
  else if !skipOk then ⟨-1, false, false, false⟩
  else if !openOutOk then ⟨-1, false, false, false⟩
  else
    let body_ret : Int := if !bodyOk then -1 else 0
    file_epilogue named keep body_ret closeOutOk

/-- Exit status computation of tmain in programs/xpack.c: per-file results
(0 ok, -1 error, -2 warning) are accumulated with ret |= -result, and a
final ret that is neither 0 nor 2 becomes 1. -/
def tmain_exit (results : List Int) : Nat :=
  let ret := results.foldl (fun acc r => acc ||| (-r).toNat) 0
  if ret ≠ 0 ∧ ret ≠ 2 then 1 else ret

/-! ## Codec model lemmas -/

/-- Decoding an encoded stream with a pending run (b, n) yields the run
followed by the remaining input. -/
theorem rleDecode_rleEncodeAux (l : List Nat) : ∀ b n,
    (∀ x ∈ l, x < 256) → b < 256 → 1 ≤ n → n ≤ 255 →
    rleDecode (rleEncodeAux l b n) (n + l.length) =
      some (List.replicate n b ++ l) := by
  induction l with
  | nil =>
    intro b n _ hb h1 h255
    show rleDecode [b, n] (n + 0) = some (List.replicate n b ++ [])
    simp only [rleDecode, Nat.add_zero]
    rw [if_pos ⟨h1, h255, Nat.le_refl n, by omega⟩]
    simp
  | cons c rest ih =>
    intro b n hlt hb h1 h255
    by_cases hc : c = b ∧ n < 255
    · obtain ⟨hceq, hn⟩ := hc
      rw [rleEncodeAux, if_pos ⟨hceq, hn⟩]
      have hrec := ih b (n + 1)
        (fun x hx => hlt x (List.mem_cons_of_mem _ hx)) hb (by omega) (by omega)
      have harith : n + (c :: rest).length = (n + 1) + rest.length := by
        simp; omega
      rw [harith, hrec]
      subst hceq
      simp [List.replicate_succ', List.append_assoc]
    · rw [rleEncodeAux, if_neg hc]
      have hcc : c < 256 := hlt c (List.mem_cons_self _ _)
      simp only [rleDecode]
      rw [if_pos ⟨h1, h255, Nat.le_add_right n _, by omega⟩]
      have harith : n + (c :: rest).length - n = 1 + rest.length := by
        simp; omega
      rw [harith,
        ih c 1 (fun x hx => hlt x (List.mem_cons_of_mem _ hx)) hcc
          (by omega) (by omega)]
      simp

/-- Whole-buffer round trip of the modelled codec core. -/
theorem rleDecode_rleEncode (l : List Nat) (hne : l ≠ [])
    (hlt : ∀ x ∈ l, x < 256) :
    rleDecode (rleEncode l) l.length = some l := by
  cases l with
  | nil => cases hne rfl
  | cons c rest =>
    rw [rleEncode]
    have hrec := rleDecode_rleEncodeAux rest c 1
      (fun x hx => hlt x (List.mem_cons_of_mem _ hx))
      (hlt c (List.mem_cons_self _ _)) (by omega) (by omega)
    have harith : (1 : Nat) + rest.length = rest.length + 1 := Nat.add_comm 1 _
    rw [harith] at hrec
    simpa using hrec

/-- A successful decode produces exactly the expected number of bytes. -/
theorem rleDecode_length : ∀ (k : Nat) (l : List Nat), l.length ≤ k →
    ∀ rem out, rleDecode l rem = some out → out.length = rem := by
  intro k
  induction k with
  | zero =>
    intro l hl rem out h
    have hnil : l = [] := List.eq_nil_of_length_eq_zero (Nat.le_zero.mp hl)
    subst hnil
    simp only [rleDecode] at h
    by_cases hr : rem = 0
    · rw [if_pos hr] at h
      cases h
      simp [hr]
    · rw [if_neg hr] at h
      cases h
  | succ k ih =>
    intro l hl rem out h
    cases l with
    | nil =>
      simp only [rleDecode] at h
      by_cases hr : rem = 0
      · rw [if_pos hr] at h
        cases h
        simp [hr]
      · rw [if_neg hr] at h
        cases h
    | cons b l1 =>
      cases l1 with
      | nil =>
        simp only [rleDecode] at h
        cases h
      | cons n rest =>
        simp only [rleDecode] at h
        by_cases hg : 1 ≤ n ∧ n ≤ 255 ∧ n ≤ rem ∧ b ≤ 255
        · rw [if_pos hg] at h
          cases hrec : rleDecode rest (rem - n) with
          | none => rw [hrec] at h; cases h
          | some t =>
            rw [hrec] at h
            simp only [Option.map_some'] at h
            cases h
            have ht := ih rest (by simp at hl; omega) (rem - n) t hrec
            simp [ht]
            omega
        · rw [if_neg hg] at h
          cases h

/-- Claim C1: for every input buffer B and level L in 1..9, if
xpack_compress on B at level L returns a nonzero size c, then the output
has exactly c bytes and xpack_decompress of those bytes with expected
output length equal to the length of B returns SUCCESS with exactly B. -/
theorem xpack_compress_decompress_roundtrip (B : List Nat) (L cap : Nat)
    (hB : ∀ b ∈ B, b < 256) (hL1 : 1 ≤ L) (hL9 : L ≤ 9)
    (hc : (xpack_compress L B cap).1 ≠ 0) :
    (xpack_compress L B cap).2.length = (xpack_compress L B cap).1 ∧
    xpack_decompress (xpack_compress L B cap).2 B.length =
      (DecompressResult.SUCCESS, B) := by
  have hL : ¬ (L < 1 ∨ 9 < L) := by omega
  by_cases h2 : B.isEmpty = true ∨ cap ≤ (rleEncode B).length
  · exfalso
    apply hc
    unfold xpack_compress
    rw [if_neg hL, if_pos h2]
  · have hcomp : xpack_compress L B cap = ((rleEncode B).length, rleEncode B) := by
      unfold xpack_compress
      rw [if_neg hL, if_neg h2]
    rw [hcomp]
    refine ⟨rfl, ?_⟩
    have hne : B ≠ [] := by
      intro hBnil
      exact h2 (Or.inl (by simp [hBnil]))
    unfold xpack_decompress
    rw [rleDecode_rleEncode B hne hB]

/-- Witness for claim C1 at a concrete input. -/
theorem xpack_compress_decompress_roundtrip_witness :
    (xpack_compress 6 [7, 7, 7, 7] 3).2.length =
      (xpack_compress 6 [7, 7, 7, 7] 3).1 ∧
    xpack_decompress (xpack_compress 6 [7, 7, 7, 7] 3).2 4 =
      (DecompressResult.SUCCESS, [7, 7, 7, 7]) :=
  xpack_compress_decompress_roundtrip [7, 7, 7, 7] 6 3
    (by decide) (by decide) (by decide) (by decide)

/-- Claim C2: for every input byte string, including malformed ones,
xpack_decompress produces at most expected_out_size bytes. -/
theorem xpack_decompress_output_bounded (input : List Nat) (expected : Nat) :
    (xpack_decompress input expected).2.length ≤ expected := by
  unfold xpack_decompress
  cases h : rleDecode input expected with
  | some out =>
    simp only [h]
    exact Nat.le_of_eq
      (rleDecode_length input.length input (Nat.le_refl _) expected out h)
  | none => simp [h]

/-! ## Exit status (tmain) -/

/-- Bitwise-or regrouping helper used for the ret |= -result fold. -/
theorem or_or_eq (a x y z : Nat) (h : x ||| y = z) : a ||| x ||| y = a ||| z := by
  rw [Nat.or_assoc, h]

/-- The ret |= -result accumulation of tmain only depends on which of the
warning (-2) and error (-1) results occur in the list. -/
theorem foldl_or_spec : ∀ (rs : List Int),
    (∀ r ∈ rs, r = 0 ∨ r = -1 ∨ r = -2) → ∀ a : Nat,
    rs.foldl (fun acc r => acc ||| (-r).toNat) a =
      a ||| ((if (-1 : Int) ∈ rs then 1 else 0) |||
             (if (-2 : Int) ∈ rs then 2 else 0)) := by
  intro rs
  induction rs with
  | nil => intro _ a; simp
  | cons r rs ih =>
    intro h a
    have hr := h r (List.mem_cons_self _ _)
    rw [List.foldl_cons, ih (fun x hx => h x (List.mem_cons_of_mem _ hx))]
    rcases hr with h0 | h1 | h2 <;> subst_vars <;>
      by_cases e1 : (-1 : Int) ∈ rs <;> by_cases e2 : (-2 : Int) ∈ rs <;>
        simp [List.mem_cons, e1, e2] <;>
          first
            | rfl
            | exact or_or_eq a _ _ _ (by decide)

/-- Closed form of tmain's exit status over the per-file results. -/
theorem tmain_exit_eq (rs : List Int)
    (h : ∀ r ∈ rs, r = 0 ∨ r = -1 ∨ r = -2) :
    tmain_exit rs =
      if (-1 : Int) ∈ rs then 1 else if (-2 : Int) ∈ rs then 2 else 0 := by
  simp only [tmain_exit]
  rw [foldl_or_spec rs h 0, Nat.zero_or]
  by_cases e1 : (-1 : Int) ∈ rs <;> by_cases e2 : (-2 : Int) ∈ rs <;>
    simp [e1, e2] <;> decide

/-- Claim C6: the xpack process exit status is 0 when every file was
processed with neither warning nor error, 2 when at least one file drew a
warning and none an error, and 1 when any file produced an error, under
the accumulation ret |= -result over per-file results 0 (ok), -1 (error),
-2 (warning). -/
theorem tmain_exit_status (rs : List Int)
    (h : ∀ r ∈ rs, r = 0 ∨ r = -1 ∨ r = -2) :
    (tmain_exit rs = 0 ↔ ∀ r ∈ rs, r = 0) ∧
    (tmain_exit rs = 2 ↔ ((-2 : Int) ∈ rs ∧ (-1 : Int) ∉ rs)) ∧
    (tmain_exit rs = 1 ↔ (-1 : Int) ∈ rs) := by
  rw [tmain_exit_eq rs h]
  by_cases e1 : (-1 : Int) ∈ rs <;> by_cases e2 : (-2 : Int) ∈ rs
  · have hne : ¬ ∀ r ∈ rs, r = 0 := fun hA => by simpa using hA _ e1
    simp [e1, e2, hne]
  · have hne : ¬ ∀ r ∈ rs, r = 0 := fun hA => by simpa using hA _ e1
    simp [e1, e2, hne]
  · have hne : ¬ ∀ r ∈ rs, r = 0 := fun hA => by simpa using hA _ e2
    simp [e1, e2, hne]
  · have hall : ∀ r ∈ rs, r = 0 := by
      intro r hrr
      rcases h r hrr with h0 | h1 | h2
      · exact h0
      · rw [h1] at hrr; exact absurd hrr e1
      · rw [h2] at hrr; exact absurd hrr e2
    simp [e1, e2]
    exact hall

/-- Witness for claim C6 at concrete result lists. -/
theorem tmain_exit_status_witness :
    (tmain_exit [0, -2] = 0 ↔ ∀ r ∈ ([0, -2] : List Int), r = 0) ∧
    (tmain_exit [0, -2] = 2 ↔
      ((-2 : Int) ∈ ([0, -2] : List Int) ∧ (-1 : Int) ∉ ([0, -2] : List Int))) ∧
    (tmain_exit [0, -2] = 1 ↔ (-1 : Int) ∈ ([0, -2] : List Int)) :=
  tmain_exit_status [0, -2] (by decide)

/-! ## Unlink discipline of compress_file / decompress_file -/

/-- compress_file unlinks the partial output exactly on failure after the
output was created, and unlinks the input only on success with a named
output and no keep option. -/
theorem compress_file_flow_unlink
    (named force keep hasSuffix openInOk openOutOk ttyOutOk headerOk
      bodyOk closeOutOk : Bool) (statRes : Int)
    (h : statRes = 0 ∨ statRes = -1 ∨ statRes = -2) :
    ((compress_file_flow named force keep hasSuffix openInOk statRes
        openOutOk ttyOutOk headerOk bodyOk closeOutOk).createdOut = true →
     (compress_file_flow named force keep hasSuffix openInOk statRes
        openOutOk ttyOutOk headerOk bodyOk closeOutOk).ret ≠ 0 →
     (compress_file_flow named force keep hasSuffix openInOk statRes
        openOutOk ttyOutOk headerOk bodyOk closeOutOk).unlinkedOut = true) ∧
    ((compress_file_flow named force keep hasSuffix openInOk statRes
        openOutOk ttyOutOk headerOk bodyOk closeOutOk).unlinkedIn = true →
     (compress_file_flow named force keep hasSuffix openInOk statRes
        openOutOk ttyOutOk headerOk bodyOk closeOutOk).ret = 0 ∧
       named = true ∧ keep = false) := by
  rcases h with h | h | h <;> subst h <;>
    revert named force keep hasSuffix openInOk openOutOk ttyOutOk headerOk
      bodyOk closeOutOk <;>
    decide

/-- decompress_file unlinks the partial output exactly on failure after
the output was created, and unlinks the input only on success with a
named output and no keep option. -/
theorem decompress_file_flow_unlink
    (named force keep suffixOk openInOk ttyInOk hdrOk skipOk openOutOk
      bodyOk closeOutOk : Bool) (statRes : Int)
    (h : statRes = 0 ∨ statRes = -1 ∨ statRes = -2) :
    ((decompress_file_flow named force keep suffixOk openInOk ttyInOk
        statRes hdrOk skipOk openOutOk bodyOk closeOutOk).createdOut = true →
     (decompress_file_flow named force keep suffixOk openInOk ttyInOk
        statRes hdrOk skipOk openOutOk bodyOk closeOutOk).ret ≠ 0 →
     (decompress_file_flow named force keep suffixOk openInOk ttyInOk
        statRes hdrOk skipOk openOutOk bodyOk closeOutOk).unlinkedOut = true) ∧
    ((decompress_file_flow named force keep suffixOk openInOk ttyInOk
        statRes hdrOk skipOk openOutOk bodyOk closeOutOk).unlinkedIn = true →
     (decompress_file_flow named force keep suffixOk openInOk ttyInOk
        statRes hdrOk skipOk openOutOk bodyOk closeOutOk).ret = 0 ∧
       named = true ∧ keep = false) := by
  rcases h with h | h | h <;> subst h <;>
    revert named force keep suffixOk openInOk ttyInOk hdrOk skipOk openOutOk
      bodyOk closeOutOk <;>
    decide

/-- Claim C10: in both compress_file and decompress_file, whenever the
operation fails after the named output file was created, the partial
output file is unlinked, and the input file is unlinked only when the
whole operation succeeded, a named output path was used, and the keep
option was not given. -/
theorem file_unlink_discipline
    (named force keep hasSuffix openInOk openOutOk ttyOutOk headerOk
      bodyOk closeOutOk : Bool) (statRes : Int)
    (named2 force2 keep2 suffixOk openInOk2 ttyInOk hdrOk skipOk openOutOk2
      bodyOk2 closeOutOk2 : Bool) (statRes2 : Int)
    (h : statRes = 0 ∨ statRes = -1 ∨ statRes = -2)
    (h2 : statRes2 = 0 ∨ statRes2 = -1 ∨ statRes2 = -2) :
    ((compress_file_flow named force keep hasSuffix openInOk statRes
        openOutOk ttyOutOk headerOk bodyOk closeOutOk).createdOut = true →
     (compress_file_flow named force keep hasSuffix openInOk statRes
        openOutOk ttyOutOk headerOk bodyOk closeOutOk).ret ≠ 0 →
     (compress_file_flow named force keep hasSuffix openInOk statRes
        openOutOk ttyOutOk headerOk bodyOk closeOutOk).unlinkedOut = true) ∧
    ((compress_file_flow named force keep hasSuffix openInOk statRes
        openOutOk ttyOutOk headerOk bodyOk closeOutOk).unlinkedIn = true →
     (compress_file_flow named force keep hasSuffix openInOk statRes
        openOutOk ttyOutOk headerOk bodyOk closeOutOk).ret = 0 ∧
       named = true ∧ keep = false) ∧
    ((decompress_file_flow named2 force2 keep2 suffixOk openInOk2 ttyInOk
        statRes2 hdrOk skipOk openOutOk2 bodyOk2 closeOutOk2).createdOut = true →
     (decompress_file_flow named2 force2 keep2 suffixOk openInOk2 ttyInOk
        statRes2 hdrOk skipOk openOutOk2 bodyOk2 closeOutOk2).ret ≠ 0 →
     (decompress_file_flow named2 force2 keep2 suffixOk openInOk2 ttyInOk
        statRes2 hdrOk skipOk openOutOk2 bodyOk2 closeOutOk2).unlinkedOut = true) ∧
    ((decompress_file_flow named2 force2 keep2 suffixOk openInOk2 ttyInOk
        statRes2 hdrOk skipOk openOutOk2 bodyOk2 closeOutOk2).unlinkedIn = true →
     (decompress_file_flow named2 force2 keep2 suffixOk openInOk2 ttyInOk
        statRes2 hdrOk skipOk openOutOk2 bodyOk2 closeOutOk2).ret = 0 ∧
       named2 = true ∧ keep2 = false) :=
  ⟨(compress_file_flow_unlink named force keep hasSuffix openInOk openOutOk
      ttyOutOk headerOk bodyOk closeOutOk statRes h).1,
   (compress_file_flow_unlink named force keep hasSuffix openInOk openOutOk
      ttyOutOk headerOk bodyOk closeOutOk statRes h).2,
   (decompress_file_flow_unlink named2 force2 keep2 suffixOk openInOk2
      ttyInOk hdrOk skipOk openOutOk2 bodyOk2 closeOutOk2 statRes2 h2).1,
   (decompress_file_flow_unlink named2 force2 keep2 suffixOk openInOk2
      ttyInOk hdrOk skipOk openOutOk2 bodyOk2 closeOutOk2 statRes2 h2).2⟩

/-- Witness for claim C10: a compress_file run whose body fails after the
output was created does unlink the output, and a fully successful
decompress_file run without -k unlinks the input. -/
theorem file_unlink_discipline_witness :
    (compress_file_flow true false false false true 0 true true true false
        true).unlinkedOut = true ∧
    ((decompress_file_flow true false false true true true 0 true true true
        true true).ret = 0 ∧ true = true ∧ false = false) :=
  ⟨(file_unlink_discipline true false false false true true true true false
      true 0 true false false true true true true true true true true 0
      (Or.inl rfl) (Or.inl rfl)).1 (by decide) (by decide),
   (file_unlink_discipline true false false false true true true true false
      true 0 true false false true true true true true true true true 0
      (Or.inl rfl) (Or.inl rfl)).2.2.2 (by decide)⟩

/-! ## File header layout -/

/-- Claim C5: write_file_header writes exactly 16 bytes, in order: the
8-byte magic XPACK with three NUL bytes, chunk_size as little-endian u32,
header_size = 16 as little-endian u16, a version byte equal to 1 and the
compression level byte; the little-endian fields read back to their
values on any host. -/
theorem write_file_header_bytes (cs lvl : Nat)
    (hcs : cs < 4294967296) (hlvl : lvl < 256) :
    (write_file_header cs lvl).length = 16 ∧
    write_file_header cs lvl = XPACK_MAGIC ++ le32 cs ++ le16 16 ++ [1, lvl] ∧
    (write_file_header cs lvl).take 8 = XPACK_MAGIC ∧
    readLe32 ((write_file_header cs lvl).drop 8) = cs ∧
    readLe16 ((write_file_header cs lvl).drop 12) = 16 ∧
    (write_file_header cs lvl).getD 14 0 = 1 ∧
    (write_file_header cs lvl).getD 15 0 = lvl := by
  simp only [write_file_header, serializeFileHeader, XPACK_MAGIC, le32, le16,
    List.cons_append, List.nil_append]
  refine ⟨rfl, ?_, rfl, ?_, ?_, ?_, ?_⟩
  · simp [Nat.mod_eq_of_lt hlvl]
  · simp only [List.drop, readLe32]
    omega
  · simp only [List.drop, readLe16]
  · simp [List.getD]
  · simp [List.getD]
    omega

/-- Witness for claim C5 at the program defaults (chunk size 524288,
level 6). -/
theorem write_file_header_bytes_witness :
    (write_file_header 524288 6).length = 16 ∧
    write_file_header 524288 6 =
      XPACK_MAGIC ++ le32 524288 ++ le16 16 ++ [1, 6] ∧
    (write_file_header 524288 6).take 8 = XPACK_MAGIC ∧
    readLe32 ((write_file_header 524288 6).drop 8) = 524288 ∧
    readLe16 ((write_file_header 524288 6).drop 12) = 16 ∧
    (write_file_header 524288 6).getD 14 0 = 1 ∧
    (write_file_header 524288 6).getD 15 0 = 6 :=
  write_file_header_bytes 524288 6 (by decide) (by decide)

/-! ## decompress_file header handling -/

/-- Fewer than 16 input bytes fail the header read with "not in XPACK
format" before any output file is created. -/
theorem decompress_file_short (l : List Nat) (h : l.length < 16) :
    decompress_file l = (false, Except.error Diag.notXpackFormat) := by
  rcases l with _ | ⟨a0, l⟩; · rfl
  rcases l with _ | ⟨a1, l⟩; · rfl
  rcases l with _ | ⟨a2, l⟩; · rfl
  rcases l with _ | ⟨a3, l⟩; · rfl
  rcases l with _ | ⟨a4, l⟩; · rfl
  rcases l with _ | ⟨a5, l⟩; · rfl
  rcases l with _ | ⟨a6, l⟩; · rfl
  rcases l with _ | ⟨a7, l⟩; · rfl
  rcases l with _ | ⟨a8, l⟩; · rfl
  rcases l with _ | ⟨a9, l⟩; · rfl
  rcases l with _ | ⟨a10, l⟩; · rfl
  rcases l with _ | ⟨a11, l⟩; · rfl
  rcases l with _ | ⟨a12, l⟩; · rfl
  rcases l with _ | ⟨a13, l⟩; · rfl
  rcases l with _ | ⟨a14, l⟩; · rfl
  rcases l with _ | ⟨a15, l⟩; · rfl
  exfalso
  simp [List.length_cons] at h
  omega

/-- Reduction of decompress_file on an input starting with a complete,
well-magicked 16-byte header. -/
theorem decompress_file_header (cs hs v lvl : Nat) (tail : List Nat)
    (hcs : cs < 4294967296) (hhs : hs < 65536) :
    decompress_file (XPACK_MAGIC ++ le32 cs ++ le16 hs ++ [v, lvl] ++ tail) =
      if v ≠ 1 then (false, Except.error Diag.unsupportedVersion)
      else if hs < 16 then (false, Except.error Diag.incorrectHeaderSize)
      else if cs < 1024 ∨ 67108864 < cs then
        (false, Except.error Diag.unsupportedChunkSize)
      else if tail.length < hs - 16 then
        (false, Except.error Diag.unexpectedEof)
      else (true, do_decompress cs (tail.drop (hs - 16))) := by
  simp only [XPACK_MAGIC, le32, le16, List.cons_append, List.nil_append]
  simp only [decompress_file]
  have hcs' : cs % 256 + 256 * (cs / 256 % 256) + 65536 * (cs / 65536 % 256) +
      16777216 * (cs / 16777216 % 256) = cs := by omega
  have hhs' : hs % 256 + 256 * (hs / 256 % 256) = hs := by omega
  rw [hcs', hhs']
  simp [XPACK_MAGIC]

/-- Claim C7: decompress_file rejects, before creating any output file,
every input whose first 16 bytes cannot be read and every input whose
magic differs from XPACK with three NUL bytes (both "not in XPACK
format"), and every well-magicked header whose version byte differs from
1 ("unsupported version"). -/
theorem decompress_file_rejects (short : List Nat)
    (m0 m1 m2 m3 m4 m5 m6 m7 : Nat) (bad : List Nat)
    (cs hs v lvl : Nat) (tail : List Nat)
    (hshort : short.length < 16)
    (hmagic : [m0, m1, m2, m3, m4, m5, m6, m7] ≠ XPACK_MAGIC)
    (hcs : cs < 4294967296) (hhs : hs < 65536) (hv : v ≠ 1) :
    decompress_file short = (false, Except.error Diag.notXpackFormat) ∧
    decompress_file (m0 :: m1 :: m2 :: m3 :: m4 :: m5 :: m6 :: m7 :: bad) =
      (false, Except.error Diag.notXpackFormat) ∧
    decompress_file (XPACK_MAGIC ++ le32 cs ++ le16 hs ++ [v, lvl] ++ tail) =
      (false, Except.error Diag.unsupportedVersion) := by
  refine ⟨decompress_file_short short hshort, ?_, ?_⟩
  · rcases bad with _ | ⟨a8, bad⟩; · rfl
    rcases bad with _ | ⟨a9, bad⟩; · rfl
    rcases bad with _ | ⟨a10, bad⟩; · rfl
    rcases bad with _ | ⟨a11, bad⟩; · rfl
    rcases bad with _ | ⟨a12, bad⟩; · rfl
    rcases bad with _ | ⟨a13, bad⟩; · rfl
    rcases bad with _ | ⟨a14, bad⟩; · rfl
    rcases bad with _ | ⟨a15, bad⟩; · rfl
    simp only [decompress_file]
    rw [if_pos hmagic]
  · rw [decompress_file_header cs hs v lvl tail hcs hhs, if_pos hv]

/-- Witness for claim C7 at concrete inputs. -/
theorem decompress_file_rejects_witness :
    decompress_file [88, 80, 65, 67, 75] =
      (false, Except.error Diag.notXpackFormat) ∧
    decompress_file
        (0 :: 80 :: 65 :: 67 :: 75 :: 0 :: 0 :: 0 ::
          [0, 0, 16, 0, 0, 0, 16, 0, 1, 6]) =
      (false, Except.error Diag.notXpackFormat) ∧
    decompress_file
        (XPACK_MAGIC ++ le32 524288 ++ le16 16 ++ [2, 6] ++ []) =
      (false, Except.error Diag.unsupportedVersion) :=
  decompress_file_rejects [88, 80, 65, 67, 75] 0 80 65 67 75 0 0 0
    [0, 0, 16, 0, 0, 0, 16, 0, 1, 6] 524288 16 2 6 []
    (by decide) (by decide) (by decide) (by decide) (by decide)

/-- Claim C9: decompress_file accepts any file header with header_size at
least 16, skipping header_size - 16 extra bytes before the first chunk,
and rejects any header_size below 16 with "incorrect header size". -/
theorem decompress_file_header_size (cs hs lvl : Nat) (extra rest : List Nat)
    (hcs1 : 1024 ≤ cs) (hcs2 : cs ≤ 67108864) (hhs : hs < 65536)
    (hextra : extra.length = hs - 16) :
    decompress_file
        (XPACK_MAGIC ++ le32 cs ++ le16 hs ++ [1, lvl] ++ (extra ++ rest)) =
      if 16 ≤ hs then (true, do_decompress cs rest)
      else (false, Except.error Diag.incorrectHeaderSize) := by
  rw [decompress_file_header cs hs 1 lvl (extra ++ rest) (by omega) hhs]
  by_cases h16 : 16 ≤ hs
  · rw [if_neg (by simp), if_neg (by omega), if_neg (by omega),
      if_neg (by simp [List.length_append, hextra]), if_pos h16]
    rw [← hextra, List.drop_left]
  · rw [if_neg (by simp), if_pos (by omega), if_neg h16]

/-- Witness for claim C9: a header with header_size 18 skips two extra
bytes, and one with header_size 8 is rejected. -/
theorem decompress_file_header_size_witness :
    decompress_file
        (XPACK_MAGIC ++ le32 1024 ++ le16 18 ++ [1, 6] ++ ([9, 9] ++ [])) =
      (true, do_decompress 1024 []) ∧
    decompress_file
        (XPACK_MAGIC ++ le32 1024 ++ le16 8 ++ [1, 6] ++ ([] ++ [])) =
      (false, Except.error Diag.incorrectHeaderSize) := by
  constructor
  · have h := decompress_file_header_size 1024 18 6 [9, 9] []
      (by decide) (by decide) (by decide) (by decide)
    simpa using h
  · have h := decompress_file_header_size 1024 8 6 [] []
      (by decide) (by decide) (by decide) (by decide)
    simpa using h

/-! ## Chunk header validation and empty-file round trip -/

/-- A chunk header violating 1 <= stored_size <= original_size <=
chunk_size makes do_decompress fail with "file corrupt". -/
theorem do_decompress_corrupt_header (cs stored original : Nat)
    (rest : List Nat)
    (hst : stored < 4294967296) (hor : original < 4294967296)
    (hviol : ¬ (1 ≤ stored ∧ stored ≤ original ∧ original ≤ cs)) :
    do_decompress cs (le32 stored ++ le32 original ++ rest) =
      Except.error Diag.fileCorrupt := by
  simp only [le32, List.cons_append, List.nil_append]
  simp only [do_decompress]
  have hst' : stored % 256 + 256 * (stored / 256 % 256) +
      65536 * (stored / 65536 % 256) +
      16777216 * (stored / 16777216 % 256) = stored := by omega
  have hor' : original % 256 + 256 * (original / 256 % 256) +
      65536 * (original / 65536 % 256) +
      16777216 * (original / 16777216 % 256) = original := by omega
  rw [hst', hor']
  rw [if_pos (by omega)]

/-- Claim C4: do_decompress diagnoses "file corrupt" for every chunk
header violating 1 <= stored_size <= original_size <= chunk_size, and
decompress_file diagnoses "unsupported chunk size" for every file header
whose chunk_size lies outside 1024..67108864. -/
theorem chunk_header_validation (cs stored original : Nat) (rest : List Nat)
    (cs2 hs lvl : Nat) (tail : List Nat)
    (hst : stored < 4294967296) (hor : original < 4294967296)
    (hviol : ¬ (1 ≤ stored ∧ stored ≤ original ∧ original ≤ cs))
    (hcs2 : cs2 < 4294967296) (hhs1 : 16 ≤ hs) (hhs2 : hs < 65536)
    (hrange : cs2 < 1024 ∨ 67108864 < cs2) :
    do_decompress cs (le32 stored ++ le32 original ++ rest) =
      Except.error Diag.fileCorrupt ∧
    decompress_file (XPACK_MAGIC ++ le32 cs2 ++ le16 hs ++ [1, lvl] ++ tail) =
      (false, Except.error Diag.unsupportedChunkSize) := by
  refine ⟨do_decompress_corrupt_header cs stored original rest hst hor hviol, ?_⟩
  rw [decompress_file_header cs2 hs 1 lvl tail hcs2 hhs2,
    if_neg (by simp), if_neg (by omega), if_pos hrange]

/-- Witness for claim C4: a chunk header with stored_size 5 greater than
original_size 3 is "file corrupt", and a file header with chunk_size 512
is "unsupported chunk size". -/
theorem chunk_header_validation_witness :
    do_decompress 2048 (le32 5 ++ le32 3 ++ []) =
      Except.error Diag.fileCorrupt ∧
    decompress_file (XPACK_MAGIC ++ le32 512 ++ le16 16 ++ [1, 6] ++ []) =
      (false, Except.error Diag.unsupportedChunkSize) :=
  chunk_header_validation 2048 5 3 [] 512 16 6 []
    (by decide) (by decide) (by decide) (by decide) (by decide) (by decide)
    (by decide)

/-- Claim C8: compressing an empty input produces exactly the 16-byte
file header with zero chunks, do_decompress of a chunk-less stream
succeeds with zero output bytes, and the produced container decompresses
back to the empty byte string. -/
theorem empty_file_roundtrip (cs lvl : Nat) (hcs1 : 1024 ≤ cs)
    (hcs2 : cs ≤ 67108864) (hlvl : lvl < 256) :
    do_compress lvl cs [] = [] ∧
    compress_file_bytes lvl cs [] = write_file_header cs lvl ∧
    (compress_file_bytes lvl cs []).length = 16 ∧
    do_decompress cs [] = Except.ok [] ∧
    decompress_file (compress_file_bytes lvl cs []) = (true, Except.ok []) := by
  have h1 : do_compress lvl cs [] = [] := by
    rw [do_compress]
    simp
  have h2 : compress_file_bytes lvl cs [] = write_file_header cs lvl := by
    rw [compress_file_bytes, h1, List.append_nil]
  have h4 : do_decompress cs [] = Except.ok [] := by
    simp only [do_decompress]
  have h5 : write_file_header cs lvl =
      XPACK_MAGIC ++ le32 cs ++ le16 16 ++ [1, lvl] := by
    simp [write_file_header, serializeFileHeader, Nat.mod_eq_of_lt hlvl]
  have h6 := decompress_file_header cs 16 1 lvl [] (by omega) (by decide)
  simp only [List.append_nil] at h6
  refine ⟨h1, h2, ?_, h4, ?_⟩
  · rw [h2, h5]
    simp [XPACK_MAGIC, le32, le16]
  · rw [h2, h5, h6, if_neg (by simp), if_neg (by omega), if_neg (by omega),
      if_neg (by simp)]
    simp [h4]

/-- Witness for claim C8 at the program defaults. -/
theorem empty_file_roundtrip_witness :
    do_compress 6 524288 [] = [] ∧
    compress_file_bytes 6 524288 [] = write_file_header 524288 6 ∧
    (compress_file_bytes 6 524288 []).length = 16 ∧
    do_decompress 524288 [] = Except.ok [] ∧
    decompress_file (compress_file_bytes 6 524288 []) =
      (true, Except.ok []) :=
  empty_file_roundtrip 524288 6 (by decide) (by decide) (by decide)

/-! ## do_compress chunk framing -/

/-- The modelled compressor returns exactly as many output bytes as its
returned size. -/
theorem xpack_compress_length (L : Nat) (input : List Nat) (cap : Nat) :
    (xpack_compress L input cap).2.length = (xpack_compress L input cap).1 := by
  unfold xpack_compress
  split_ifs <;> rfl

/-- A successful modelled compress stays strictly below the capacity. -/
theorem xpack_compress_lt (L : Nat) (input : List Nat) (cap : Nat)
    (h : (xpack_compress L input cap).1 ≠ 0) :
    (xpack_compress L input cap).1 < cap := by
  unfold xpack_compress at h ⊢
  split_ifs at h ⊢ with h1 h2
  · simp at h
  · simp at h
  · push_neg at h2
    exact h2.2

/-- Claim C3: for the chunk c of up to chunk_size bytes that do_compress
reads, the output receives the 8-byte little-endian chunk header
(stored_size then original_size) followed by exactly stored_size stored
bytes; stored_size is the original size with the raw bytes when
xpack_compress at capacity original_size - 1 returned 0, and otherwise it
is the returned compressed size, which is strictly below original_size. -/
theorem do_compress_chunk (level chunk_size : Nat) (input c : List Nat)
    (r : Nat × List Nat)
    (hcs : 1 ≤ chunk_size) (hin : input ≠ [])
    (hc : c = input.take chunk_size)
    (hr : r = xpack_compress level c (c.length - 1)) :
    do_compress level chunk_size input =
      (write_chunk_header (if r.1 = 0 then c.length else r.1) c.length ++
        (if r.1 = 0 then c else r.2)) ++
      do_compress level chunk_size (input.drop chunk_size) ∧
    write_chunk_header (if r.1 = 0 then c.length else r.1) c.length =
      le32 (if r.1 = 0 then c.length else r.1) ++ le32 c.length ∧
    (write_chunk_header (if r.1 = 0 then c.length else r.1) c.length).length
      = 8 ∧
    (if r.1 = 0 then c else r.2).length =
      (if r.1 = 0 then c.length else r.1) ∧
    (if r.1 = 0 then c.length else r.1) ≤ c.length ∧
    (r.1 ≠ 0 → r.1 < c.length) := by
  subst hc
  subst hr
  have hlenpos : 0 < input.length := List.length_pos.mpr hin
  have hclen : 1 ≤ (input.take chunk_size).length := by
    simp only [List.length_take]
    omega
  have hlt : (xpack_compress level (input.take chunk_size)
      ((input.take chunk_size).length - 1)).1 ≠ 0 →
      (xpack_compress level (input.take chunk_size)
        ((input.take chunk_size).length - 1)).1 <
        (input.take chunk_size).length := by
    intro h0
    have := xpack_compress_lt level (input.take chunk_size)
      ((input.take chunk_size).length - 1) h0
    omega
  refine ⟨?_, rfl, ?_, ?_, ?_, hlt⟩
  · conv_lhs => rw [do_compress]
    rw [dif_neg (by push_neg; exact ⟨by omega, hin⟩)]
    unfold compressChunk
    split_ifs <;> rfl
  · simp [write_chunk_header, le32]
  · split_ifs with h0
    · rfl
    · exact xpack_compress_length level (input.take chunk_size) _
  · split_ifs with h0
    · exact Nat.le_refl _
    · exact Nat.le_of_lt (hlt h0)

/-- Witness for claim C3: a five-byte repetitive input with chunk size 4
compresses its first chunk to 2 bytes, and a three-byte input with chunk
size 2 stores its first chunk raw. -/
theorem do_compress_chunk_witness :
    (do_compress 6 4 [7, 7, 7, 7, 7] =
      (write_chunk_header 2 4 ++ [7, 4]) ++ do_compress 6 4 [7] ∧
     write_chunk_header 2 4 = le32 2 ++ le32 4 ∧
     (write_chunk_header 2 4).length = 8 ∧
     ([7, 4] : List Nat).length = 2 ∧
     2 ≤ 4 ∧
     ((2 : Nat) ≠ 0 → 2 < 4)) ∧
    (do_compress 6 2 [7, 7, 7] =
      (write_chunk_header 2 2 ++ [7, 7]) ++ do_compress 6 2 [7] ∧
     write_chunk_header 2 2 = le32 2 ++ le32 2 ∧
     (write_chunk_header 2 2).length = 8 ∧
     ([7, 7] : List Nat).length = 2 ∧
     2 ≤ 2 ∧
     ((0 : Nat) ≠ 0 → 0 < 2)) := by
  constructor
  · have h := do_compress_chunk 6 4 [7, 7, 7, 7, 7] [7, 7, 7, 7] (2, [7, 4])
      (by decide) (by decide) (by decide) (by decide)
    simpa using h
  · have h := do_compress_chunk 6 2 [7, 7, 7] [7, 7] (0, [])
      (by decide) (by decide) (by decide) (by decide)
    simpa using h
